import Mathlib

/-!
Verification of the subscription lifecycle core of `src/main.py`
(Real-Time-Event-Monitoring MCP server).

The Python module keeps three pieces of process-wide state:

* `active_subscriptions : dict key -> asyncio.Task` (insertion ordered),
* `subscription_ids    : dict key -> upstream id (any JSON value, possibly None)`,
* `event_storage       : defaultdict key -> deque(maxlen=MAX_EVENTS)`.

All registry mutation happens under one `asyncio.Lock`, so we model the
system as a sequential interleaving of atomic actions: the caller-facing
operations (`validate_and_subscribe`, `unsubscribe`, `listSubscriptions`)
and one step of a `ws_listener` worker coroutine per suspension point.
A cancellation requested while a worker is suspended is observed at the
worker's next step (`asyncio` delivers `CancelledError` at the next await),
which is exactly how the model dispatches `ws_listener_step`.

JSON values are shallowly embedded as `JVal`; Python `None` is `JVal.jnull`.
Wall-clock timestamps carried by event records are presentation-only and are
not modelled; the `str(...)` rendering applied to some error payloads is kept
as the structured value itself (string conversion is presentation-only).
-/

/-- Result of Python's `x in response` test, which can raise `TypeError`
when `response` is not a container (e.g. an int or None). -/
inductive PyInRes where
  | yes
  | no
  | typeErr
deriving DecidableEq

/-- Shallow embedding of a JSON value (`json.loads` output).
Python `None` is `jnull`. -/
inductive JVal where
  | jnull
  | jbool (b : Bool)
  | jnum (n : Int)
  | jstr (s : String)
  | jarr (elems : List JVal)
  | jobj (fields : List (String × JVal))

/-- Constants from `src/main.py` lines 23-24. -/
def MAX_EVENTS : Nat := 10

def MAX_SUBSCRIPTIONS : Nat := 5

/-- One record of `event_storage` : the Python code appends dicts
`\x7b"timestamp": ..., "type": ..., "data": ...\x7d`; the timestamp is
presentation-only and not modelled.  `etype` is the `"type"` entry and
`edata` the `"data"` entry. -/
structure EventRecord where
  etype : String
  edata : JVal

/-- Python substring test `needle in hay` for strings. -/
def strContains (hay needle : String) : Bool :=
  (List.range (hay.data.length + 1)).any (fun i => needle.data.isPrefixOf (hay.data.drop i))

/-- Python membership test `needle in v` for a decoded JSON value:
key lookup for dicts, element search for lists, substring test for
strings, `TypeError` otherwise. -/
def pyContains (needle : String) : JVal → PyInRes
  | JVal.jobj fs => if needle ∈ fs.map Prod.fst then PyInRes.yes else PyInRes.no
  | JVal.jarr es =>
      if es.any (fun e => match e with | JVal.jstr t => t == needle | _ => false)
      then PyInRes.yes else PyInRes.no
  | JVal.jstr t => if strContains t needle then PyInRes.yes else PyInRes.no
  | _ => PyInRes.typeErr

/-- Dictionary lookup `fs.get(k)` on a decoded JSON object (`None` ↦ `Option.none`). -/
def jlookup (k : String) (fs : List (String × JVal)) : Option JVal :=
  (fs.find? (fun p => p.1 == k)).map Prod.snd

/-- Helper for Python `str.replace` : rewrites every occurrence of `pat`
(non-empty at the call sites) inside the character list, left to right.
The fuel argument starts at the input length and never runs out for a
non-empty pattern. -/
def replaceFuel (pat repl : List Char) : Nat → List Char → List Char
  | 0, l => l
  | _ + 1, [] => []
  | fuel + 1, c :: rest =>
      if pat.isPrefixOf (c :: rest) then
        repl ++ replaceFuel pat repl fuel ((c :: rest).drop pat.length)
      else
        c :: replaceFuel pat repl fuel rest

/-- Python `s.replace(pat, repl)` for a non-empty `pat` (the code always
uses `method.replace("Subscribe", "Unsubscribe")`, line 113). -/
def pyReplace (s pat repl : String) : String :=
  String.mk (replaceFuel pat.data repl.data s.data.length s.data)

/-- Append with the `deque(maxlen=MAX_EVENTS)` bound of `event_storage`
(line 27): the new record goes to the tail and the oldest entries are
dropped so that at most `MAX_EVENTS` remain. -/
def dequeAppend (buf : List EventRecord) (r : EventRecord) : List EventRecord :=
  let b := buf ++ [r]
  if MAX_EVENTS < b.length then b.drop (b.length - MAX_EVENTS) else b

/-- Phase of one `ws_listener` coroutine (section 4.2 of the spec):
before the connection is up, awaiting the handshake response, inside the
streaming `while True` loop, or finished (returned / cancelled). -/
inductive WPhase where
  | connecting
  | handshaking
  | streaming
  | terminated
deriving DecidableEq

/-- One spawned `ws_listener` task: its key, its subscribe method, its
current phase and whether `Task.cancel()` has been requested. -/
structure WTask where
  key : String
  method : String
  phase : WPhase
  cancelRequested : Bool

/-- The process-wide state of `src/main.py` (lines 25-28) together with
the spawned tasks and two ghost logs used only by the statements:
`unsubAttempts` records every upstream unsubscribe request actually sent
by a cancellation handler, `spawnLog` records every `asyncio.create_task`
call keyed by subscription key. -/
structure Sys where
  active_subscriptions : List (String × Nat)
  subscription_ids : List (String × JVal)
  event_storage : List (String × List EventRecord)
  tasks : List WTask
  unsubAttempts : List (String × String × JVal)
  spawnLog : List String

/-- The keys currently registered in `active_subscriptions`, oldest first. -/
def Sys.activeKeys (s : Sys) : List String :=
  s.active_subscriptions.map Prod.fst

/-- Initial state: empty dicts, no tasks. -/
def initSys : Sys := ⟨[], [], [], [], [], []⟩

/-- `subscription_ids.get(key)` (`None` for an absent key). -/
def idLookup (key : String) (ids : List (String × JVal)) : Option JVal :=
  (ids.find? (fun p => p.1 == key)).map Prod.snd

/-- `subscription_ids[key] = v` : update in place if the key exists
(keeping dict order), otherwise insert at the end. -/
def setId (key : String) (v : JVal) : List (String × JVal) → List (String × JVal)
  | [] => [(key, v)]
  | p :: rest => if p.1 = key then (key, v) :: rest else p :: setId key v rest

/-- `list(event_storage[key])` / `event_storage.get(key, [])` : the current
per-key buffer, `[]` for an unknown key.  (The `defaultdict` also creates an
empty deque on a missing-key read; that is unobservable through reads and is
not modelled as a mutation.) -/
def bufRead (key : String) (store : List (String × List EventRecord)) : List EventRecord :=
  ((store.find? (fun p => p.1 == key)).map Prod.snd).getD []

/-- Store a whole per-key buffer back into `event_storage`. -/
def storeWrite (key : String) (buf : List EventRecord) :
    List (String × List EventRecord) → List (String × List EventRecord)
  | [] => [(key, buf)]
  | p :: rest => if p.1 = key then (key, buf) :: rest else p :: storeWrite key buf rest

/-- `event_storage[key].append(r)` with the deque bound. -/
def appendBuf (key : String) (r : EventRecord) (s : Sys) : Sys :=
  { s with event_storage := storeWrite key (dequeAppend (bufRead key s.event_storage) r) s.event_storage }

/-- Apply `f` to task number `tid` (no-op for an unknown id). -/
def modifyTask (tid : Nat) (f : WTask → WTask) (s : Sys) : Sys :=
  match s.tasks[tid]? with
  | some t => { s with tasks := s.tasks.set tid (f t) }
  | none => s

/-- `task.cancel()` : request cooperative cancellation. -/
def markCancelled (tid : Nat) (s : Sys) : Sys :=
  modifyTask tid (fun t => { t with cancelRequested := true }) s

/-- Move task `tid` to phase `ph`. -/
def setPhase (tid : Nat) (ph : WPhase) (s : Sys) : Sys :=
  modifyTask tid (fun t => { t with phase := ph }) s

/-- Error record as appended by `ws_listener` (`"type": "error"`). -/
def errorRecord (data : JVal) : EventRecord := ⟨"error", data⟩

/-- Record appended on a successful handshake (lines 76-80):
`"type": "subscribed"`, `"data": \x7b"subscription_id": sub_id\x7d`. -/
def subscribedRecord (subId : JVal) : EventRecord :=
  ⟨"subscribed", JVal.jobj [("subscription_id", subId)]⟩

/-- Record appended for a matching streaming notification (lines 90-94). -/
def updateRecord (data : JVal) : EventRecord := ⟨"update", data⟩

/-- The error record of the streaming loop's generic handler (lines 100-104). -/
def procErrorRecord : EventRecord :=
  errorRecord (JVal.jobj [("error", JVal.jstr "Websocket processing error")])

/-- The `except asyncio.CancelledError` handler of `ws_listener`
(lines 107-122): if the key is still present in `subscription_ids`, open a
new connection and send the upstream unsubscribe request, using
`method.replace("Subscribe", "Unsubscribe")` and the stored id as sole
parameter; any failure there is logged only (it changes no state either
way, so the model records just the attempt).  The task then finishes. -/
def ws_listener_on_cancel (tid : Nat) (s : Sys) : Sys :=
  match s.tasks[tid]? with
  | none => s
  | some t =>
      if t.phase = WPhase.terminated then s
      else
        let s1 :=
          if t.key ∈ s.subscription_ids.map Prod.fst then
            { s with unsubAttempts := s.unsubAttempts ++
                [(t.key, pyReplace t.method "Subscribe" "Unsubscribe",
                  (idLookup t.key s.subscription_ids).getD JVal.jnull)] }
          else s
        setPhase tid WPhase.terminated s1

/-- Handling of the single awaited handshake response (lines 61-80) for a
successfully decoded JSON value `v`:
* `"error" in response` raising `TypeError` (non-container response) is
  caught by the outer `except Exception` (lines 123-129): error record,
  task ends;
* an error-carrying response appends an error record and returns;
  a non-dict response that passes the `in` test hits `AttributeError`
  on `.get` and lands in the outer handler — one error record either way;
* otherwise `sub_id = response.get("result")` (possibly `None`!) is stored
  into `subscription_ids[key]`, a `subscribed` record carrying it is
  appended, and the worker enters the streaming loop. -/
def handshakeResponse (tid : Nat) (t : WTask) (v : JVal) (s : Sys) : Sys :=
  match pyContains "error" v with
  | PyInRes.typeErr =>
      setPhase tid WPhase.terminated
        (appendBuf t.key (errorRecord (JVal.jobj [("error", JVal.jstr "Unhandled websocket error")])) s)
  | PyInRes.yes =>
      match v with
      | JVal.jobj fs =>
          setPhase tid WPhase.terminated
            (appendBuf t.key
              (errorRecord (JVal.jobj
                [("error", (jlookup "error" fs).getD (JVal.jstr "Unknown subscription error"))])) s)
      | _ =>
          setPhase tid WPhase.terminated
            (appendBuf t.key (errorRecord (JVal.jobj [("error", JVal.jstr "Unhandled websocket error")])) s)
  | PyInRes.no =>
      match v with
      | JVal.jobj fs =>
          let subId := (jlookup "result" fs).getD JVal.jnull
          let s1 := { s with subscription_ids := setId t.key subId s.subscription_ids }
          setPhase tid WPhase.streaming (appendBuf t.key (subscribedRecord subId) s1)
      | _ =>
          setPhase tid WPhase.terminated
            (appendBuf t.key (errorRecord (JVal.jobj [("error", JVal.jstr "Unhandled websocket error")])) s)

/-- One iteration of the streaming `while True` loop (lines 82-105) on a
successfully decoded message `v`:
* `"method" in msg` raising `TypeError`, indexing a non-dict, or `.get` on
  a non-dict `params` all land in the inner `except Exception`: an error
  record is appended and the loop continues;
* a dict message whose `"method"` equals `"subscription"` appends an
  `update` record with `msg.get("params", \x7b\x7d).get("result", \x7b\x7d)`;
* anything else is ignored. -/
def streamMessage (t : WTask) (v : JVal) (s : Sys) : Sys :=
  match pyContains "method" v with
  | PyInRes.typeErr => appendBuf t.key procErrorRecord s
  | PyInRes.no => s
  | PyInRes.yes =>
      match v with
      | JVal.jobj fs =>
          match jlookup "method" fs with
          | some (JVal.jstr m) =>
              if m = "subscription" then
                match (jlookup "params" fs).getD (JVal.jobj []) with
                | JVal.jobj ps =>
                    appendBuf t.key (updateRecord ((jlookup "result" ps).getD (JVal.jobj []))) s
                | _ => appendBuf t.key procErrorRecord s
              else s
          | _ => s
      | _ => appendBuf t.key procErrorRecord s

/-- The upstream-visible events a suspended `ws_listener` can observe at
its next suspension point. -/
inductive UpEvent where
  | connectOk
  | connectFail
  | recvRaw (decoded : Option JVal)
  | recvError

/-- One step of the `ws_listener` coroutine for task `tid` (lines 30-129).
A requested cancellation is observed first (`CancelledError` is raised at
the next await).  Otherwise the observed upstream event is processed
according to the task's phase:
* connecting: the connection comes up, or `websockets.connect` raises and
  the outer `except Exception` appends an error record and the task ends;
* handshaking: a decode failure or a receive error appends an error record
  and the task returns; a decoded response goes to `handshakeResponse`;
* streaming: a decode failure is logged only (lines 95-97); a decoded
  message goes to `streamMessage`; a receive error (including a closed
  connection) is caught by the inner `except Exception`, appends an error
  record and the loop continues — the task stays in `streaming`. -/
def ws_listener_step (tid : Nat) (ev : UpEvent) (s : Sys) : Sys :=
  match s.tasks[tid]? with
  | none => s
  | some t =>
      if t.phase = WPhase.terminated then s
      else if t.cancelRequested then ws_listener_on_cancel tid s
      else
        match t.phase, ev with
        | WPhase.connecting, UpEvent.connectOk => setPhase tid WPhase.handshaking s
        | WPhase.connecting, UpEvent.connectFail =>
            setPhase tid WPhase.terminated
              (appendBuf t.key (errorRecord (JVal.jobj [("error", JVal.jstr "Unhandled websocket error")])) s)
        | WPhase.handshaking, UpEvent.recvRaw none =>
            setPhase tid WPhase.terminated
              (appendBuf t.key
                (errorRecord (JVal.jobj [("error", JVal.jstr "Failed to decode JSON response from websocket")])) s)
        | WPhase.handshaking, UpEvent.recvError =>
            setPhase tid WPhase.terminated
              (appendBuf t.key
                (errorRecord (JVal.jobj [("error", JVal.jstr "Error receiving initial response")])) s)
        | WPhase.handshaking, UpEvent.recvRaw (some v) => handshakeResponse tid t v s
        | WPhase.streaming, UpEvent.recvRaw none => s
        | WPhase.streaming, UpEvent.recvRaw (some v) => streamMessage t v s
        | WPhase.streaming, UpEvent.recvError => appendBuf t.key procErrorRecord s
        | _, _ => s

/-- Evict the oldest entry of `active_subscriptions`
(lines 139-150): `next(iter(active_subscriptions))` is the first inserted
key; its registry entry and its `subscription_ids` entry are popped, and
the task is cancelled fire-and-forget. -/
def evictOldest (s : Sys) : Sys :=
  match s.active_subscriptions with
  | [] => s
  | (oldestKey, tid) :: rest =>
      markCancelled tid
        { s with
            active_subscriptions := rest,
            subscription_ids := s.subscription_ids.filter (fun p => p.1 != oldestKey) }

/-- `validate_and_subscribe(key, method, params)` (lines 131-156): under the
lock, if `key` is not active and the registry holds at least
`MAX_SUBSCRIPTIONS` entries, evict the oldest entry; then, if `key` is
still not active, spawn a fresh `ws_listener` task for it (recorded in the
ghost `spawnLog`).  Returns `list(event_storage[key])`. -/
def validate_and_subscribe (key method : String) (s : Sys) : List EventRecord × Sys :=
  let s1 :=
    if key ∉ s.activeKeys ∧ MAX_SUBSCRIPTIONS ≤ s.active_subscriptions.length
    then evictOldest s else s
  let s2 :=
    if key ∉ s1.activeKeys then
      { s1 with
          active_subscriptions := s1.active_subscriptions ++ [(key, s1.tasks.length)],
          tasks := s1.tasks ++ [⟨key, method, WPhase.connecting, false⟩],
          spawnLog := s1.spawnLog ++ [key] }
    else s1
  (bufRead key s2.event_storage, s2)

/-- Outcome of the `unsubscribe` tool: the Python code returns
`\x7b"status": "success", ..., "subscription_id": sub_id\x7d` or
`\x7b"status": "error", "message": "No active subscription found ..."\x7d`. -/
inductive UnsubResult where
  | success (subscription_id : Option JVal)
  | notFound

/-- `unsubscribe(key)` (lines 217-237): under the lock, pop the key's task
and its `subscription_ids` entry (both pops happen unconditionally, with a
`None` default); if a task was present, cancel it and await it — the
awaited task observes the cancellation at once, so its `CancelledError`
handler runs to completion here — and report success with the popped id;
otherwise report not-found. -/
def unsubscribe (key : String) (s : Sys) : UnsubResult × Sys :=
  let taskOpt := (s.active_subscriptions.find? (fun p => p.1 == key)).map Prod.snd
  let subId := idLookup key s.subscription_ids
  let s1 :=
    { s with
        active_subscriptions := s.active_subscriptions.filter (fun p => p.1 != key),
        subscription_ids := s.subscription_ids.filter (fun p => p.1 != key) }
  match taskOpt with
  | some tid => (UnsubResult.success subId, ws_listener_on_cancel tid (markCancelled tid s1))
  | none => (UnsubResult.notFound, s1)

/-- Everything after the first `'_'` of a character list, if any. -/
def afterFirstUnderscore : List Char → Option (List Char)
  | [] => none
  | c :: rest => if c = '_' then some rest else afterFirstUnderscore rest

/-- Python `key.split("_", 1)[1] if "_" in key else key` (lines 257, 260):
everything after the first underscore, or the key itself when it has none. -/
def splitAfterUnderscore (key : String) : String :=
  match afterFirstUnderscore key.data with
  | some rest => String.mk rest
  | none => key

/-- Python `key.startswith(pre)`. -/
def pyStartsWith (key pre : String) : Bool :=
  pre.data.isPrefixOf key.data

/-- The key-type classification of `listSubscriptions` (lines 253-266),
returning the `"type"` label and the extra field the branch attaches
(`"program_id"` for program keys, `"commitment"` for block keys). -/
def classifyKey (key : String) : String × Option (String × String) :=
  if pyStartsWith key "program_" then
    ("program", some ("program_id", splitAfterUnderscore key))
  else if pyStartsWith key "block_" then
    ("block", some ("commitment", splitAfterUnderscore key))
  else if 60 < key.length ∧ key.length < 90 then
    ("transaction_signature", none)
  else
    ("account", none)

/-- One entry of the `subscriptions` list returned by `listSubscriptions`
(lines 246-268). `dtype` is the `"type"` entry; `extra` is the
classification-dependent extra entry, if any. -/
structure SubDetail where
  key : String
  subscription_id : Option JVal
  event_count : Nat
  task_status : String
  dtype : String
  extra : Option (String × String)

/-- Build the detail dict for one `(key, task)` pair of
`active_subscriptions` (lines 247-266).  The `none` task branch is
unreachable (every registered id indexes a spawned task). -/
def mkDetail (s : Sys) (p : String × Nat) : SubDetail :=
  { key := p.1
  , subscription_id := idLookup p.1 s.subscription_ids
  , event_count := (bufRead p.1 s.event_storage).length
  , task_status :=
      match s.tasks[p.2]? with
      | some t => if t.phase = WPhase.terminated then "done" else "running"
      | none => "running"
  , dtype := (classifyKey p.1).1
  , extra := (classifyKey p.1).2 }

/-- Return value of `listSubscriptions` (lines 270-274). -/
structure ListResult where
  active_count : Nat
  max_subscriptions : Nat
  subscriptions : List SubDetail

/-- `listSubscriptions()` (lines 242-274). -/
def listSubscriptions (s : Sys) : ListResult :=
  ⟨s.active_subscriptions.length, MAX_SUBSCRIPTIONS,
    s.active_subscriptions.map (mkDetail s)⟩

/-- An atomic action of the sequential interleaving model: a caller-facing
subscribe-style call (all three tools funnel into `validate_and_subscribe`),
an `unsubscribe` call, or one observed step of a worker task. -/
inductive SysAction where
  | subscribe (key method : String)
  | unsub (key : String)
  | worker (tid : Nat) (ev : UpEvent)

/-- Apply one action to the system state. -/
def stepSys (s : Sys) : SysAction → Sys
  | SysAction.subscribe key method => (validate_and_subscribe key method s).2
  | SysAction.unsub key => (unsubscribe key s).2
  | SysAction.worker tid ev => ws_listener_step tid ev s

/-- Run a trace of actions from the initial state. -/
def runSys (as : List SysAction) : Sys := as.foldl stepSys initSys

/-- One `deque(maxlen=MAX_EVENTS)` append keeps exactly the last
`MAX_EVENTS` elements of the extended sequence. -/
lemma dequeAppend_eq (buf : List EventRecord) (r : EventRecord) :
    dequeAppend buf r = (buf ++ [r]).drop ((buf ++ [r]).length - MAX_EVENTS) := by
  show (if MAX_EVENTS < (buf ++ [r]).length then
      (buf ++ [r]).drop ((buf ++ [r]).length - MAX_EVENTS) else buf ++ [r]) =
    (buf ++ [r]).drop ((buf ++ [r]).length - MAX_EVENTS)
  by_cases h : MAX_EVENTS < (buf ++ [r]).length
  · rw [if_pos h]
  · rw [if_neg h]
    have h0 : (buf ++ [r]).length - MAX_EVENTS = 0 := by omega
    rw [h0, List.drop_zero]

/-- A bounded buffer stays bounded across one append. -/
lemma dequeAppend_length_le (buf : List EventRecord) (r : EventRecord)
    (h : buf.length ≤ MAX_EVENTS) : (dequeAppend buf r).length ≤ MAX_EVENTS := by
  rw [dequeAppend_eq, List.length_drop]
  omega

/-- Folding the appends of a whole history over a bounded buffer keeps
exactly the last `MAX_EVENTS` elements of `buf ++ hist`. -/
lemma foldl_dequeAppend (l : List EventRecord) (buf : List EventRecord)
    (h : buf.length ≤ MAX_EVENTS) :
    l.foldl dequeAppend buf = (buf ++ l).drop ((buf ++ l).length - MAX_EVENTS) := by
  induction l generalizing buf with
  | nil =>
      simp only [List.foldl_nil, List.append_nil]
      have h0 : buf.length - MAX_EVENTS = 0 := by omega
      rw [h0, List.drop_zero]
  | cons r l ih =>
      rw [List.foldl_cons, ih (dequeAppend buf r) (dequeAppend_length_le buf r h)]
      rw [dequeAppend_eq]
      have hk : (buf ++ [r]).length - MAX_EVENTS ≤ (buf ++ [r]).length := by omega
      rw [← List.drop_append_of_le_length hk, List.drop_drop]
      have harr : buf ++ r :: l = (buf ++ [r]) ++ l := by simp
      rw [harr]
      congr 1
      simp only [List.length_drop, List.length_append, List.length_cons,
        List.length_singleton]
      omega

/-- C4: for every history of appends to one key's event buffer, the buffer
holds at most `MAX_EVENTS = 10` records, the held sequence is exactly a
contiguous suffix of the append history in append order (only the oldest
records are dropped), and appending `MAX_EVENTS + 3` records leaves exactly
the last `MAX_EVENTS`, oldest-first (the first three dropped). -/
theorem C4_buffer_bounded_suffix (hist : List EventRecord) :
    (hist.foldl dequeAppend []).length ≤ MAX_EVENTS ∧
    (hist.foldl dequeAppend []) <:+ hist ∧
    hist.foldl dequeAppend [] = hist.drop (hist.length - MAX_EVENTS) ∧
    (hist.length = MAX_EVENTS + 3 → hist.foldl dequeAppend [] = hist.drop 3) := by
  have h := foldl_dequeAppend hist [] (by simp [MAX_EVENTS])
  simp only [List.nil_append] at h
  refine ⟨?_, ?_, h, ?_⟩
  · rw [h, List.length_drop]; omega
  · rw [h]; exact List.drop_suffix _ _
  · intro hl
    rw [h, hl]
    norm_num [MAX_EVENTS]

/-- A concrete 13-record history for the C4 witness. -/
def hist13 : List EventRecord :=
  (List.range (MAX_EVENTS + 3)).map (fun i => updateRecord (JVal.jnum i))

/-- Witness for C4 at the concrete 13-record history: at most 10 records
remain and they are exactly the last 10. -/
theorem C4_buffer_bounded_suffix_witness :
    (hist13.foldl dequeAppend []).length ≤ MAX_EVENTS ∧
    hist13.foldl dequeAppend [] = hist13.drop 3 :=
  ⟨(C4_buffer_bounded_suffix hist13).1,
   (C4_buffer_bounded_suffix hist13).2.2.2 (by rfl)⟩

/-- Trace for C2, explicit-unsubscribe variant: one subscribe, the worker
connects and receives the handshake response `\x7b"result": 42\x7d`, so the
upstream id 42 is recorded for `"k"`. -/
def c2subTrace : List SysAction :=
  [SysAction.subscribe "k" "accountSubscribe",
   SysAction.worker 0 UpEvent.connectOk,
   SysAction.worker 0 (UpEvent.recvRaw (some (JVal.jobj [("result", JVal.jnum 42)])))]

/-- Trace for C2, eviction variant, part 1: `"k1"` subscribes and records
upstream id 7, then four more keys fill the registry to capacity. -/
def c2evictPre : List SysAction :=
  [SysAction.subscribe "k1" "accountSubscribe",
   SysAction.worker 0 UpEvent.connectOk,
   SysAction.worker 0 (UpEvent.recvRaw (some (JVal.jobj [("result", JVal.jnum 7)]))),
   SysAction.subscribe "k2" "accountSubscribe",
   SysAction.subscribe "k3" "accountSubscribe",
   SysAction.subscribe "k4" "accountSubscribe",
   SysAction.subscribe "k5" "accountSubscribe"]

/-- Trace for C2, eviction variant, part 2: a sixth key evicts `"k1"`
(fire-and-forget cancel), and worker 0 then observes the cancellation at
its next suspension point. -/
def c2evictPost : List SysAction :=
  [SysAction.subscribe "k6" "accountSubscribe",
   SysAction.worker 0 UpEvent.recvError]

/-- C2 (code bug): in both cancellation paths the registry pops
`subscription_ids[key]` before cancelling the worker, so the worker's
`CancelledError` handler finds the key absent and never attempts the
upstream unsubscribe — even though an upstream id had been recorded.
Explicit-unsubscribe variant: id 42 is recorded for `"k"`, yet after
`unsubscribe("k")` completes (worker terminated) no upstream unsubscribe
request was ever sent.  Eviction variant: id 7 is recorded for `"k1"`,
yet after eviction and the worker's cancellation step no request was sent. -/
theorem C2_no_upstream_unsubscribe_attempt :
    idLookup "k" (runSys c2subTrace).subscription_ids = some (JVal.jnum 42) ∧
    (unsubscribe "k" (runSys c2subTrace)).2.unsubAttempts = [] ∧
    ((unsubscribe "k" (runSys c2subTrace)).2.tasks[0]?).map WTask.phase = some WPhase.terminated ∧
    idLookup "k1" (runSys c2evictPre).subscription_ids = some (JVal.jnum 7) ∧
    (runSys (c2evictPre ++ c2evictPost)).unsubAttempts = [] ∧
    ((runSys (c2evictPre ++ c2evictPost)).tasks[0]?).map WTask.phase = some WPhase.terminated :=
  ⟨rfl, rfl, rfl, rfl, rfl, rfl⟩

/-- Trace for C5: subscribe `"k"`, the worker connects, the handshake
response carries an error field (terminal failure), then `"k"` is
subscribed again. -/
def c5trace : List SysAction :=
  [SysAction.subscribe "k" "accountSubscribe",
   SysAction.worker 0 UpEvent.connectOk,
   SysAction.worker 0 (UpEvent.recvRaw (some (JVal.jobj [("error", JVal.jstr "bad key")]))),
   SysAction.subscribe "k" "accountSubscribe"]

/-- C5 counterexample: after the worker's terminal handshake failure the
registry entry for `"k"` is still present (the code never removes a
failed worker's entry), and the subsequent subscribe call does NOT start
a fresh worker — exactly one task was ever spawned for `"k"`, not two. -/
theorem C5_counterexample :
    Sys.activeKeys (runSys c5trace) = ["k"] ∧
    (runSys c5trace).spawnLog = ["k"] ∧
    ¬ (runSys c5trace).tasks.length = 2 :=
  ⟨rfl, rfl, by decide⟩

/-- Trace for C6: the handshake response is the JSON object `\x7b\x7d`,
which carries neither an error field nor any result. -/
def c6trace : List SysAction :=
  [SysAction.subscribe "k" "accountSubscribe",
   SysAction.worker 0 UpEvent.connectOk,
   SysAction.worker 0 (UpEvent.recvRaw (some (JVal.jobj [])))]

/-- C6 counterexample: a well-formed JSON response carrying neither an
error field nor a numeric result (`\x7b\x7d`) does NOT produce an error
record or terminate the worker; the code treats it as success, stores
`None` as the upstream id, appends a `subscribed` record and enters
streaming. -/
theorem C6_counterexample :
    ((runSys c6trace).tasks[0]?).map WTask.phase = some WPhase.streaming ∧
    (bufRead "k" (runSys c6trace).event_storage).map EventRecord.etype = ["subscribed"] ∧
    idLookup "k" (runSys c6trace).subscription_ids = some JVal.jnull :=
  ⟨rfl, rfl, rfl⟩

/-- Trace for C8: a successful handshake, then two receive failures of the
streaming connection (e.g. the peer closed it: every subsequent `recv`
raises). -/
def c8trace : List SysAction :=
  [SysAction.subscribe "k" "accountSubscribe",
   SysAction.worker 0 UpEvent.connectOk,
   SysAction.worker 0 (UpEvent.recvRaw (some (JVal.jobj [("result", JVal.jnum 1)]))),
   SysAction.worker 0 UpEvent.recvError,
   SysAction.worker 0 UpEvent.recvError]

/-- C8 (code bug): a connection-level error during streaming is caught by
the inner `except Exception` which appends an error record and then
re-enters the `while True` loop — the worker does not terminate.  After
two failed receives the task is still in `streaming` and the buffer holds
two error records (one per failed receive), not a single error record
followed by termination. -/
theorem C8_streaming_error_does_not_terminate :
    ((runSys c8trace).tasks[0]?).map WTask.phase = some WPhase.streaming ∧
    (bufRead "k" (runSys c8trace).event_storage).map EventRecord.etype =
      ["subscribed", "error", "error"] :=
  ⟨rfl, rfl⟩

/-- Trace for C10: one program-prefixed key and one plain key become
active. -/
def c10trace : List SysAction :=
  [SysAction.subscribe "program_abc" "programSubscribe",
   SysAction.subscribe "abc" "accountSubscribe"]

/-- C10 counterexample: the classification does affect an output field
beyond the `type` label — the detail dict of a program-classified key
carries an extra `program_id` entry (derived from the key by the
classification branch) which the detail dict of an account-classified key
does not have. -/
theorem C10_counterexample :
    (listSubscriptions (runSys c10trace)).subscriptions.map SubDetail.extra =
      [some ("program_id", "abc"), none] :=
  rfl

/-- The registry invariants of section 3 of the spec, plus the two
auxiliary facts needed to re-establish them across steps:
* the registry never exceeds `MAX_SUBSCRIPTIONS` entries;
* at most one registry entry per key;
* every `subscription_ids` key is a registered key;
* every live (non-cancelled, non-terminated) task is registered under
  its key and task id. -/
structure SysInv (s : Sys) : Prop where
  len_le : s.active_subscriptions.length ≤ MAX_SUBSCRIPTIONS
  keysNodup : s.activeKeys.Nodup
  ids_sub : ∀ p ∈ s.subscription_ids, p.1 ∈ s.activeKeys
  alive_mem : ∀ tid t, s.tasks[tid]? = some t → t.cancelRequested = false →
      t.phase ≠ WPhase.terminated → (t.key, tid) ∈ s.active_subscriptions

lemma modifyTask_active (tid : Nat) (f : WTask → WTask) (s : Sys) :
    (modifyTask tid f s).active_subscriptions = s.active_subscriptions := by
  unfold modifyTask
  cases s.tasks[tid]? <;> rfl

lemma modifyTask_ids (tid : Nat) (f : WTask → WTask) (s : Sys) :
    (modifyTask tid f s).subscription_ids = s.subscription_ids := by
  unfold modifyTask
  cases s.tasks[tid]? <;> rfl

lemma modifyTask_storage (tid : Nat) (f : WTask → WTask) (s : Sys) :
    (modifyTask tid f s).event_storage = s.event_storage := by
  unfold modifyTask
  cases s.tasks[tid]? <;> rfl

lemma modifyTask_spawnLog (tid : Nat) (f : WTask → WTask) (s : Sys) :
    (modifyTask tid f s).spawnLog = s.spawnLog := by
  unfold modifyTask
  cases s.tasks[tid]? <;> rfl

lemma modifyTask_tasks_length (tid : Nat) (f : WTask → WTask) (s : Sys) :
    (modifyTask tid f s).tasks.length = s.tasks.length := by
  unfold modifyTask
  cases s.tasks[tid]? <;> simp

lemma lt_length_of_getElem?_some {l : List WTask} {n : Nat} {t : WTask}
    (h : l[n]? = some t) : n < l.length := by
  by_contra hge
  push_neg at hge
  rw [List.getElem?_eq_none hge] at h
  exact Option.noConfusion h

lemma modifyTask_getElem (tid : Nat) (f : WTask → WTask) (s : Sys) (j : Nat) :
    (modifyTask tid f s).tasks[j]? =
      if j = tid then (s.tasks[tid]?).map f else s.tasks[j]? := by
  unfold modifyTask
  cases h : s.tasks[tid]? with
  | none =>
      by_cases hj : j = tid
      · subst hj; simp [h]
      · simp [hj]
  | some t =>
      by_cases hj : j = tid
      · subst hj
        have hlt := lt_length_of_getElem?_some h
        simp [List.getElem?_set_eq_of_lt (f t) hlt, h]
      · simp [List.getElem?_set_ne (fun hc => hj hc.symm), hj]

lemma markCancelled_active (tid : Nat) (s : Sys) :
    (markCancelled tid s).active_subscriptions = s.active_subscriptions :=
  modifyTask_active tid _ s

lemma markCancelled_ids (tid : Nat) (s : Sys) :
    (markCancelled tid s).subscription_ids = s.subscription_ids :=
  modifyTask_ids tid _ s

lemma markCancelled_storage (tid : Nat) (s : Sys) :
    (markCancelled tid s).event_storage = s.event_storage :=
  modifyTask_storage tid _ s

lemma markCancelled_getElem (tid : Nat) (s : Sys) (j : Nat) :
    (markCancelled tid s).tasks[j]? =
      if j = tid then (s.tasks[tid]?).map (fun t => { t with cancelRequested := true })
      else s.tasks[j]? :=
  modifyTask_getElem tid _ s j

lemma setPhase_active (tid : Nat) (ph : WPhase) (s : Sys) :
    (setPhase tid ph s).active_subscriptions = s.active_subscriptions :=
  modifyTask_active tid _ s

lemma setPhase_ids (tid : Nat) (ph : WPhase) (s : Sys) :
    (setPhase tid ph s).subscription_ids = s.subscription_ids :=
  modifyTask_ids tid _ s

lemma setPhase_getElem (tid : Nat) (ph : WPhase) (s : Sys) (j : Nat) :
    (setPhase tid ph s).tasks[j]? =
      if j = tid then (s.tasks[tid]?).map (fun t => { t with phase := ph })
      else s.tasks[j]? :=
  modifyTask_getElem tid _ s j

/-- Transfer the invariant along equal registry-relevant fields. -/
lemma sysInv_of_fields {s s' : Sys} (h : SysInv s)
    (ha : s'.active_subscriptions = s.active_subscriptions)
    (hi : s'.subscription_ids = s.subscription_ids)
    (ht : s'.tasks = s.tasks) : SysInv s' := by
  constructor
  · rw [ha]; exact h.len_le
  · show (s'.active_subscriptions.map Prod.fst).Nodup
    rw [ha]; exact h.keysNodup
  · intro p hp
    show p.1 ∈ s'.active_subscriptions.map Prod.fst
    rw [ha]
    exact h.ids_sub p (hi ▸ hp)
  · intro tid t hget hc hp
    rw [ha]
    exact h.alive_mem tid t (ht ▸ hget) hc hp

lemma sysInv_appendBuf {s : Sys} (key : String) (r : EventRecord) (h : SysInv s) :
    SysInv (appendBuf key r s) :=
  sysInv_of_fields h rfl rfl rfl

lemma sysInv_markCancelled {s : Sys} (tid : Nat) (h : SysInv s) :
    SysInv (markCancelled tid s) := by
  constructor
  · rw [markCancelled_active]; exact h.len_le
  · show ((markCancelled tid s).active_subscriptions.map Prod.fst).Nodup
    rw [markCancelled_active]; exact h.keysNodup
  · intro p hp
    show p.1 ∈ (markCancelled tid s).active_subscriptions.map Prod.fst
    rw [markCancelled_active]
    refine h.ids_sub p ?_
    rw [markCancelled_ids] at hp
    exact hp
  · intro j t hget hc hp
    rw [markCancelled_active]
    rw [markCancelled_getElem] at hget
    by_cases hj : j = tid
    · rw [if_pos hj] at hget
      cases h0 : s.tasks[tid]? with
      | none => rw [h0] at hget; exact Option.noConfusion hget
      | some t0 =>
          rw [h0] at hget
          simp only [Option.map_some'] at hget
          cases hget
          exact absurd hc (by simp)
    · rw [if_neg hj] at hget
      exact h.alive_mem j t hget hc hp

lemma sysInv_setPhase_terminated {s : Sys} (tid : Nat) (h : SysInv s) :
    SysInv (setPhase tid WPhase.terminated s) := by
  constructor
  · rw [setPhase_active]; exact h.len_le
  · show ((setPhase tid WPhase.terminated s).active_subscriptions.map Prod.fst).Nodup
    rw [setPhase_active]; exact h.keysNodup
  · intro p hp
    show p.1 ∈ (setPhase tid WPhase.terminated s).active_subscriptions.map Prod.fst
    rw [setPhase_active]
    refine h.ids_sub p ?_
    rw [setPhase_ids] at hp
    exact hp
  · intro j t hget hc hp
    rw [setPhase_active]
    rw [setPhase_getElem] at hget
    by_cases hj : j = tid
    · rw [if_pos hj] at hget
      cases h0 : s.tasks[tid]? with
      | none => rw [h0] at hget; exact Option.noConfusion hget
      | some t0 =>
          rw [h0] at hget
          simp only [Option.map_some'] at hget
          cases hget
          exact absurd rfl hp
    · rw [if_neg hj] at hget
      exact h.alive_mem j t hget hc hp

/-- Setting any phase on a task known to be live preserves the invariant. -/
lemma sysInv_setPhase_of_alive {s : Sys} (tid : Nat) (ph : WPhase) (t0 : WTask)
    (h0 : s.tasks[tid]? = some t0) (hc0 : t0.cancelRequested = false)
    (hp0 : t0.phase ≠ WPhase.terminated) (h : SysInv s) :
    SysInv (setPhase tid ph s) := by
  constructor
  · rw [setPhase_active]; exact h.len_le
  · show ((setPhase tid ph s).active_subscriptions.map Prod.fst).Nodup
    rw [setPhase_active]; exact h.keysNodup
  · intro p hp
    show p.1 ∈ (setPhase tid ph s).active_subscriptions.map Prod.fst
    rw [setPhase_active]
    refine h.ids_sub p ?_
    rw [setPhase_ids] at hp
    exact hp
  · intro j t hget hc hp
    rw [setPhase_active]
    rw [setPhase_getElem] at hget
    by_cases hj : j = tid
    · rw [if_pos hj] at hget
      rw [h0] at hget
      simp only [Option.map_some'] at hget
      cases hget
      rw [hj]
      exact h.alive_mem tid t0 h0 hc0 hp0
    · rw [if_neg hj] at hget
      exact h.alive_mem j t hget hc hp

lemma evict_active (s : Sys) :
    (evictOldest s).active_subscriptions = s.active_subscriptions.tail := by
  unfold evictOldest
  split
  · next heq => rw [heq]; rfl
  · next oldestKey tid rest heq => rw [markCancelled_active, heq]; rfl

lemma evict_activeKeys (s : Sys) :
    (evictOldest s).activeKeys = s.activeKeys.tail := by
  unfold Sys.activeKeys
  rw [evict_active]
  cases s.active_subscriptions <;> rfl

lemma evict_tasks_length (s : Sys) :
    (evictOldest s).tasks.length = s.tasks.length := by
  unfold evictOldest
  split
  · rfl
  · exact modifyTask_tasks_length _ _ _

lemma evict_spawnLog (s : Sys) : (evictOldest s).spawnLog = s.spawnLog := by
  unfold evictOldest
  split
  · rfl
  · exact modifyTask_spawnLog _ _ _

lemma sysInv_evictOldest {s : Sys} (h : SysInv s) : SysInv (evictOldest s) := by
  unfold evictOldest
  split
  · exact h
  · next oldestKey tid rest heq =>
    constructor
    · rw [markCancelled_active]
      have hl := h.len_le
      rw [heq] at hl
      simp only [List.length_cons] at hl
      simpa using Nat.le_of_succ_le (Nat.succ_le_succ (Nat.le_of_succ_le_succ hl))
    · show ((markCancelled tid _).active_subscriptions.map Prod.fst).Nodup
      rw [markCancelled_active]
      have hn := h.keysNodup
      unfold Sys.activeKeys at hn
      rw [heq] at hn
      simp only [List.map_cons, List.nodup_cons] at hn
      exact hn.2
    · intro p hp
      show p.1 ∈ (markCancelled tid _).active_subscriptions.map Prod.fst
      rw [markCancelled_active]
      rw [markCancelled_ids] at hp
      simp only at hp
      have hmem := List.mem_filter.mp hp
      have hne : p.1 ≠ oldestKey := by simpa [bne_iff_ne] using hmem.2
      have hin := h.ids_sub p hmem.1
      unfold Sys.activeKeys at hin
      rw [heq] at hin
      simp only [List.map_cons, List.mem_cons] at hin
      rcases hin with h1 | h2
      · exact absurd h1 hne
      · exact h2
    · intro j t hget hc hp
      rw [markCancelled_active]
      rw [markCancelled_getElem] at hget
      by_cases hj : j = tid
      · rw [if_pos hj] at hget
        simp only at hget
        cases h0 : s.tasks[tid]? with
        | none => rw [h0] at hget; exact Option.noConfusion hget
        | some t0 =>
            rw [h0] at hget
            simp only [Option.map_some'] at hget
            cases hget
            exact absurd hc (by simp)
      · rw [if_neg hj] at hget
        simp only at hget
        have := h.alive_mem j t hget hc hp
        rw [heq] at this
        rcases List.mem_cons.mp this with h1 | h2
        · exact absurd (congrArg Prod.snd h1) hj
        · exact h2

/-- A fresh spawn into a registry below capacity keeps the invariant. -/
lemma sysInv_spawn {s : Sys} (key m : String) (h : SysInv s)
    (hnot : key ∉ s.activeKeys)
    (hlen : s.active_subscriptions.length < MAX_SUBSCRIPTIONS) :
    SysInv { s with
        active_subscriptions := s.active_subscriptions ++ [(key, s.tasks.length)],
        tasks := s.tasks ++ [⟨key, m, WPhase.connecting, false⟩],
        spawnLog := s.spawnLog ++ [key] } := by
  constructor
  · simp only [List.length_append, List.length_singleton]
    omega
  · show ((s.active_subscriptions ++ [(key, s.tasks.length)]).map Prod.fst).Nodup
    rw [List.map_append]
    simp only [List.map_cons, List.map_nil]
    rw [List.nodup_append]
    refine ⟨h.keysNodup, List.nodup_singleton key, ?_⟩
    intro a ha hb
    simp only [List.mem_singleton] at hb
    exact hnot (hb ▸ ha)
  · intro p hp
    show p.1 ∈ (s.active_subscriptions ++ [(key, s.tasks.length)]).map Prod.fst
    rw [List.map_append]
    exact List.mem_append_left _ (h.ids_sub p hp)
  · intro j t hget hc hp
    by_cases hlt : j < s.tasks.length
    · rw [List.getElem?_append_left hlt] at hget
      exact List.mem_append_left _ (h.alive_mem j t hget hc hp)
    · by_cases hje : j = s.tasks.length
      · subst hje
        have hsome : (s.tasks ++ [(⟨key, m, WPhase.connecting, false⟩ : WTask)])[s.tasks.length]? =
            some ⟨key, m, WPhase.connecting, false⟩ := by simp
        rw [hsome] at hget
        cases hget
        exact List.mem_append_right _ (by simp)
      · exfalso
        have hge : (s.tasks ++ [(⟨key, m, WPhase.connecting, false⟩ : WTask)]).length ≤ j := by
          simp only [List.length_append, List.length_singleton]
          omega
        rw [List.getElem?_eq_none hge] at hget
        exact Option.noConfusion hget

lemma vas_state_eq_of_mem {s : Sys} {key : String} (m : String)
    (hmem : key ∈ s.activeKeys) :
    validate_and_subscribe key m s = (bufRead key s.event_storage, s) := by
  have h1 : ¬ (key ∉ s.activeKeys ∧ MAX_SUBSCRIPTIONS ≤ s.active_subscriptions.length) :=
    fun hc => hc.1 hmem
  have h2 : ¬ key ∉ s.activeKeys := not_not_intro hmem
  simp only [validate_and_subscribe, if_neg h1, if_neg h2]

lemma vas_state_spawn_below {s : Sys} {key : String} (m : String)
    (hnot : key ∉ s.activeKeys)
    (hlen : s.active_subscriptions.length < MAX_SUBSCRIPTIONS) :
    (validate_and_subscribe key m s).2 = { s with
        active_subscriptions := s.active_subscriptions ++ [(key, s.tasks.length)],
        tasks := s.tasks ++ [⟨key, m, WPhase.connecting, false⟩],
        spawnLog := s.spawnLog ++ [key] } := by
  have h1 : ¬ (key ∉ s.activeKeys ∧ MAX_SUBSCRIPTIONS ≤ s.active_subscriptions.length) :=
    fun hc => absurd hc.2 (by omega)
  simp only [validate_and_subscribe, if_neg h1, if_pos hnot]

lemma vas_state_evict {s : Sys} {key : String} (m : String)
    (hnot : key ∉ s.activeKeys)
    (hlen : MAX_SUBSCRIPTIONS ≤ s.active_subscriptions.length) :
    (validate_and_subscribe key m s).2 = { evictOldest s with
        active_subscriptions :=
          (evictOldest s).active_subscriptions ++ [(key, (evictOldest s).tasks.length)],
        tasks := (evictOldest s).tasks ++ [⟨key, m, WPhase.connecting, false⟩],
        spawnLog := (evictOldest s).spawnLog ++ [key] } := by
  have hnot1 : key ∉ (evictOldest s).activeKeys := by
    rw [evict_activeKeys]
    intro hm
    exact hnot ((List.tail_sublist _).subset hm)
  simp only [validate_and_subscribe, if_pos (And.intro hnot hlen), if_pos hnot1]

lemma sysInv_vas {s : Sys} (key m : String) (h : SysInv s) :
    SysInv ((validate_and_subscribe key m s).2) := by
  by_cases hmem : key ∈ s.activeKeys
  · rw [congrArg Prod.snd (vas_state_eq_of_mem m hmem)]
    exact h
  · by_cases hlen : MAX_SUBSCRIPTIONS ≤ s.active_subscriptions.length
    · rw [vas_state_evict m hmem hlen]
      have hinv1 := sysInv_evictOldest h
      have hnot1 : key ∉ (evictOldest s).activeKeys := by
        rw [evict_activeKeys]
        intro hm
        exact hmem ((List.tail_sublist _).subset hm)
      have hlen1 : (evictOldest s).active_subscriptions.length < MAX_SUBSCRIPTIONS := by
        rw [evict_active, List.length_tail]
        have := h.len_le
        have hpos : 0 < s.active_subscriptions.length := by
          have : (0 : Nat) < MAX_SUBSCRIPTIONS := by norm_num [MAX_SUBSCRIPTIONS]
          omega
        omega
      exact sysInv_spawn key m hinv1 hnot1 hlen1
    · push_neg at hlen
      rw [vas_state_spawn_below m hmem hlen]
      exact sysInv_spawn key m h hmem hlen

lemma sysInv_on_cancel {s : Sys} (tid : Nat) (h : SysInv s) :
    SysInv (ws_listener_on_cancel tid s) := by
  simp only [ws_listener_on_cancel]
  split
  · exact h
  · split
    · exact h
    · split
      · exact sysInv_setPhase_terminated tid (sysInv_of_fields h rfl rfl rfl)
      · exact sysInv_setPhase_terminated tid h

/-- Entries with equal keys coincide in a list with duplicate-free keys. -/
lemma nodup_keys_unique {α : Type} {l : List (String × α)}
    (h : (l.map Prod.fst).Nodup) {k : String} {a b : α}
    (ha : (k, a) ∈ l) (hb : (k, b) ∈ l) : a = b := by
  induction l with
  | nil => cases ha
  | cons p rest ih =>
      simp only [List.map_cons, List.nodup_cons] at h
      rcases List.mem_cons.mp ha with h1 | h1
      · rcases List.mem_cons.mp hb with h2 | h2
        · exact congrArg Prod.snd (h1.trans h2.symm)
        · exfalso
          apply h.1
          have hk : k ∈ List.map Prod.fst rest := List.mem_map_of_mem Prod.fst h2
          rw [← h1]
          exact hk
      · rcases List.mem_cons.mp hb with h2 | h2
        · exfalso
          apply h.1
          have hk : k ∈ List.map Prod.fst rest := List.mem_map_of_mem Prod.fst h1
          rw [← h2]
          exact hk
        · exact ih h.2 h1 h2

lemma sysInv_unsub {s : Sys} (key : String) (h : SysInv s) :
    SysInv ((unsubscribe key s).2) := by
  simp only [unsubscribe]
  cases hf : s.active_subscriptions.find? (fun p => p.1 == key) with
  | none =>
      simp only [Option.map_none']
      have hno : key ∉ s.activeKeys := by
        intro hm
        obtain ⟨q, hq, hqk⟩ := List.mem_map.mp hm
        have := List.find?_eq_none.mp hf q hq
        simp only [beq_iff_eq] at this
        exact this hqk
      constructor
      · exact le_trans (List.length_filter_le _ _) h.len_le
      · exact h.keysNodup.sublist ((List.filter_sublist _).map Prod.fst)
      · intro p hp
        have hmem := List.mem_filter.mp hp
        have hin := h.ids_sub p hmem.1
        obtain ⟨q, hq, hqk⟩ := List.mem_map.mp hin
        have hqne : (q.1 != key) = true := by
          simp only [bne_iff_ne, ne_eq]
          intro hc
          exact hno (hc ▸ List.mem_map_of_mem Prod.fst hq)
        exact hqk ▸ List.mem_map_of_mem Prod.fst (List.mem_filter.mpr ⟨hq, hqne⟩)
      · intro j t hget hc hp
        have hm := h.alive_mem j t hget hc hp
        refine List.mem_filter.mpr ⟨hm, ?_⟩
        simp only [bne_iff_ne, ne_eq]
        intro hck
        exact hno (hck ▸ List.mem_map_of_mem Prod.fst hm)
  | some p0 =>
      simp only [Option.map_some']
      have hp0mem : p0 ∈ s.active_subscriptions := List.mem_of_find?_eq_some hf
      have hp0key : p0.1 = key := by
        have := List.find?_some hf
        simpa using this
      apply sysInv_on_cancel
      constructor
      · rw [markCancelled_active]
        exact le_trans (List.length_filter_le _ _) h.len_le
      · show ((markCancelled p0.2 _).active_subscriptions.map Prod.fst).Nodup
        rw [markCancelled_active]
        exact h.keysNodup.sublist ((List.filter_sublist _).map Prod.fst)
      · intro p hp
        show p.1 ∈ (markCancelled p0.2 _).active_subscriptions.map Prod.fst
        rw [markCancelled_active]
        rw [markCancelled_ids] at hp
        simp only at hp
        have hmem := List.mem_filter.mp hp
        have hpne : p.1 ≠ key := by simpa [bne_iff_ne] using hmem.2
        have hin := h.ids_sub p hmem.1
        obtain ⟨q, hq, hqk⟩ := List.mem_map.mp hin
        have hqne : (q.1 != key) = true := by
          simp only [bne_iff_ne, ne_eq]
          intro hc
          exact hpne (hqk ▸ hc)
        exact hqk ▸ List.mem_map_of_mem Prod.fst (List.mem_filter.mpr ⟨hq, hqne⟩)
      · intro j t hget hc hp
        rw [markCancelled_active]
        rw [markCancelled_getElem] at hget
        by_cases hj : j = p0.2
        · rw [if_pos hj] at hget
          simp only at hget
          cases h0 : s.tasks[p0.2]? with
          | none => rw [h0] at hget; exact Option.noConfusion hget
          | some t0 =>
              rw [h0] at hget
              simp only [Option.map_some'] at hget
              cases hget
              exact absurd hc (by simp)
        · rw [if_neg hj] at hget
          simp only at hget
          have hm := h.alive_mem j t hget hc hp
          refine List.mem_filter.mpr ⟨hm, ?_⟩
          simp only [bne_iff_ne, ne_eq]
          intro hck
          apply hj
          refine nodup_keys_unique h.keysNodup (hck ▸ hm) ?_
          have : (key, p0.2) = p0 := by
            rw [← hp0key]
          exact this ▸ hp0mem

lemma mem_keys_setId {ids : List (String × JVal)} {key : String} {v : JVal}
    {p : String × JVal} (hp : p ∈ setId key v ids) :
    p.1 = key ∨ p.1 ∈ ids.map Prod.fst := by
  induction ids with
  | nil =>
      simp only [setId, List.mem_singleton] at hp
      exact Or.inl (congrArg Prod.fst hp)
  | cons q rest ih =>
      simp only [setId] at hp
      by_cases hq : q.1 = key
      · rw [if_pos hq] at hp
        rcases List.mem_cons.mp hp with h1 | h1
        · exact Or.inl (congrArg Prod.fst h1)
        · exact Or.inr (List.mem_map_of_mem Prod.fst (List.mem_cons_of_mem q h1))
      · rw [if_neg hq] at hp
        rcases List.mem_cons.mp hp with h1 | h1
        · refine Or.inr ?_
          rw [h1]
          exact List.mem_map_of_mem Prod.fst (List.mem_cons_self q rest)
        · rcases ih h1 with h2 | h2
          · exact Or.inl h2
          · refine Or.inr ?_
            simp only [List.map_cons, List.mem_cons]
            exact Or.inr h2

lemma sysInv_handshake {s : Sys} (tid : Nat) (t : WTask) (v : JVal)
    (h0 : s.tasks[tid]? = some t) (hc : t.cancelRequested = false)
    (hph : t.phase ≠ WPhase.terminated) (h : SysInv s) :
    SysInv (handshakeResponse tid t v s) := by
  unfold handshakeResponse
  cases hpc : pyContains "error" v with
  | typeErr => exact sysInv_setPhase_terminated tid (sysInv_appendBuf _ _ h)
  | yes => cases v <;> exact sysInv_setPhase_terminated tid (sysInv_appendBuf _ _ h)
  | no =>
      cases v with
      | jobj fs =>
          have hinv1 : SysInv { s with subscription_ids := (setId t.key ((jlookup "result" fs).getD JVal.jnull) s.subscription_ids) } := by
            constructor
            · exact h.len_le
            · exact h.keysNodup
            · intro p hp
              show p.1 ∈ s.activeKeys
              rcases mem_keys_setId hp with h1 | h1
              · rw [h1]
                exact List.mem_map_of_mem Prod.fst (h.alive_mem tid t h0 hc hph)
              · obtain ⟨q, hq, hqk⟩ := List.mem_map.mp h1
                rw [← hqk]
                exact h.ids_sub q hq
            · intro j t' hget hc' hp'
              exact h.alive_mem j t' hget hc' hp'
          exact sysInv_setPhase_of_alive tid WPhase.streaming t h0 hc hph
            (sysInv_appendBuf _ _ hinv1)
      | jnull => exact sysInv_setPhase_terminated tid (sysInv_appendBuf _ _ h)
      | jbool b => exact sysInv_setPhase_terminated tid (sysInv_appendBuf _ _ h)
      | jnum n => exact sysInv_setPhase_terminated tid (sysInv_appendBuf _ _ h)
      | jstr t' => exact sysInv_setPhase_terminated tid (sysInv_appendBuf _ _ h)
      | jarr es => exact sysInv_setPhase_terminated tid (sysInv_appendBuf _ _ h)

lemma sysInv_stream {s : Sys} (t : WTask) (v : JVal) (h : SysInv s) :
    SysInv (streamMessage t v s) := by
  unfold streamMessage
  repeat' split
  all_goals first
    | exact h
    | exact sysInv_appendBuf _ _ h

lemma sysInv_wstep {s : Sys} (tid : Nat) (ev : UpEvent) (h : SysInv s) :
    SysInv (ws_listener_step tid ev s) := by
  unfold ws_listener_step
  split
  · exact h
  · next t heq =>
      split
      · exact h
      · next hterm =>
          split
          · exact sysInv_on_cancel tid h
          · next hcr =>
              simp only [Bool.not_eq_true] at hcr
              split
              all_goals first
                | exact h
                | exact sysInv_setPhase_terminated tid (sysInv_appendBuf _ _ h)
                | exact sysInv_setPhase_of_alive tid WPhase.handshaking t heq hcr hterm h
                | exact sysInv_handshake tid t _ heq hcr hterm h
                | exact sysInv_stream t _ h
                | exact sysInv_appendBuf _ _ h

lemma sysInv_init : SysInv initSys := by
  constructor
  · simp [initSys, MAX_SUBSCRIPTIONS]
  · simp [initSys, Sys.activeKeys]
  · intro p hp
    simp [initSys] at hp
  · intro tid t hget
    simp [initSys] at hget

lemma sysInv_step {s : Sys} (a : SysAction) (h : SysInv s) : SysInv (stepSys s a) := by
  cases a with
  | subscribe key m => exact sysInv_vas key m h
  | unsub key => exact sysInv_unsub key h
  | worker tid ev => exact sysInv_wstep tid ev h

lemma sysInv_foldl (as : List SysAction) (s : Sys) (h : SysInv s) :
    SysInv (as.foldl stepSys s) := by
  induction as generalizing s with
  | nil => exact h
  | cons a as ih => exact ih _ (sysInv_step a h)

/-- Every state reachable from the initial state satisfies the registry
invariants. -/
lemma sysInv_run (as : List SysAction) : SysInv (runSys as) :=
  sysInv_foldl as initSys sysInv_init

/-- C1: over every action trace from the initial state the registry never
holds more than `MAX_SUBSCRIPTIONS = 5` entries; and at capacity, a call
for a fresh key removes one existing entry (the oldest) before inserting
the new one, leaving the size at exactly `MAX_SUBSCRIPTIONS`. -/
theorem C1_registry_capacity :
    (∀ as : List SysAction,
      (runSys as).active_subscriptions.length ≤ MAX_SUBSCRIPTIONS) ∧
    (∀ (s : Sys) (key m : String), key ∉ s.activeKeys →
      s.active_subscriptions.length = MAX_SUBSCRIPTIONS →
      (validate_and_subscribe key m s).2.active_subscriptions =
        s.active_subscriptions.tail ++ [(key, s.tasks.length)] ∧
      (validate_and_subscribe key m s).2.active_subscriptions.length =
        MAX_SUBSCRIPTIONS) := by
  constructor
  · intro as
    exact (sysInv_run as).len_le
  · intro s key m hnot hlen
    have heq := vas_state_evict m hnot (le_of_eq hlen.symm)
    constructor
    · rw [heq]
      show (evictOldest s).active_subscriptions ++
        [(key, (evictOldest s).tasks.length)] = _
      rw [evict_active, evict_tasks_length]
    · rw [heq]
      show ((evictOldest s).active_subscriptions ++
        [(key, (evictOldest s).tasks.length)]).length = _
      rw [List.length_append, evict_active, List.length_tail]
      simp only [List.length_singleton]
      have h5 : MAX_SUBSCRIPTIONS = 5 := rfl
      omega

/-- Five distinct keys filling the registry for the C1 witness. -/
def c1trace : List SysAction :=
  [SysAction.subscribe "A1" "accountSubscribe",
   SysAction.subscribe "A2" "accountSubscribe",
   SysAction.subscribe "A3" "accountSubscribe",
   SysAction.subscribe "A4" "accountSubscribe",
   SysAction.subscribe "A5" "accountSubscribe"]

/-- Witness for C1 at the full five-key registry and a sixth key. -/
theorem C1_registry_capacity_witness :
    (validate_and_subscribe "A6" "accountSubscribe" (runSys c1trace)).2.active_subscriptions =
      (runSys c1trace).active_subscriptions.tail ++ [("A6", (runSys c1trace).tasks.length)] ∧
    (validate_and_subscribe "A6" "accountSubscribe" (runSys c1trace)).2.active_subscriptions.length =
      MAX_SUBSCRIPTIONS :=
  C1_registry_capacity.2 (runSys c1trace) "A6" "accountSubscribe" (by decide) (by decide)

/-- C3: at capacity the entry evicted by a subscribe-style call for an
absent key is exactly the oldest-inserted one (the head of the
insertion-ordered registry), everything else keeping its order, with the
new key inserted youngest; and a subscribe-style call for a key already
present leaves the whole state unchanged — in particular the key's
position in the eviction order. -/
theorem C3_fifo_eviction_order :
    (∀ (s : Sys) (key m : String), key ∉ s.activeKeys →
      s.active_subscriptions.length = MAX_SUBSCRIPTIONS →
      (validate_and_subscribe key m s).2.active_subscriptions =
        s.active_subscriptions.tail ++ [(key, s.tasks.length)]) ∧
    (∀ (s : Sys) (key m : String), key ∈ s.activeKeys →
      (validate_and_subscribe key m s).2 = s) := by
  constructor
  · intro s key m hnot hlen
    rw [vas_state_evict m hnot (le_of_eq hlen.symm)]
    show (evictOldest s).active_subscriptions ++
      [(key, (evictOldest s).tasks.length)] = _
    rw [evict_active, evict_tasks_length]
  · intro s key m hmem
    rw [congrArg Prod.snd (vas_state_eq_of_mem m hmem)]

/-- Five keys subscribed in order B1..B5 for the C3 witness. -/
def c3trace : List SysAction :=
  [SysAction.subscribe "B1" "accountSubscribe",
   SysAction.subscribe "B2" "accountSubscribe",
   SysAction.subscribe "B3" "accountSubscribe",
   SysAction.subscribe "B4" "accountSubscribe",
   SysAction.subscribe "B5" "accountSubscribe"]

/-- Witness for C3: subscribing B6 at capacity evicts exactly B1 (the
oldest), and re-subscribing the already-present B2 changes nothing. -/
theorem C3_fifo_eviction_order_witness :
    (validate_and_subscribe "B6" "accountSubscribe" (runSys c3trace)).2.active_subscriptions =
      (runSys c3trace).active_subscriptions.tail ++ [("B6", (runSys c3trace).tasks.length)] ∧
    (validate_and_subscribe "B2" "accountSubscribe" (runSys c3trace)).2 = runSys c3trace :=
  ⟨C3_fifo_eviction_order.1 (runSys c3trace) "B6" "accountSubscribe" (by decide) (by decide),
   C3_fifo_eviction_order.2 (runSys c3trace) "B2" "accountSubscribe" (by decide)⟩

/-- C7: over every action trace the registry keys are duplicate-free (at
most one live Subscription per key), and two consecutive subscribe-style
calls for an absent key spawn exactly one worker for it: the ghost spawn
log grows by exactly that one key. -/
theorem C7_at_most_one_worker :
    (∀ as : List SysAction, (Sys.activeKeys (runSys as)).Nodup) ∧
    (∀ (s : Sys) (key m : String), key ∉ s.activeKeys →
      ((validate_and_subscribe key m
          (validate_and_subscribe key m s).2).2).spawnLog =
        s.spawnLog ++ [key]) := by
  constructor
  · intro as
    exact (sysInv_run as).keysNodup
  · intro s key m hnot
    by_cases hlen : MAX_SUBSCRIPTIONS ≤ s.active_subscriptions.length
    · have h1 := vas_state_evict m hnot hlen
      have hmem1 : key ∈ ((validate_and_subscribe key m s).2).activeKeys := by
        rw [h1]
        show key ∈ ((evictOldest s).active_subscriptions ++
          [(key, (evictOldest s).tasks.length)]).map Prod.fst
        rw [List.map_append]
        exact List.mem_append_right _ (by simp)
      rw [congrArg Prod.snd (vas_state_eq_of_mem m hmem1), h1]
      show (evictOldest s).spawnLog ++ [key] = s.spawnLog ++ [key]
      rw [evict_spawnLog]
    · push_neg at hlen
      have h1 := vas_state_spawn_below m hnot hlen
      have hmem1 : key ∈ ((validate_and_subscribe key m s).2).activeKeys := by
        rw [h1]
        show key ∈ (s.active_subscriptions ++
          [(key, s.tasks.length)]).map Prod.fst
        rw [List.map_append]
        exact List.mem_append_right _ (by simp)
      rw [congrArg Prod.snd (vas_state_eq_of_mem m hmem1), h1]

/-- Witness for C7: subscribing the same fresh key twice from the initial
state spawns exactly one worker. -/
theorem C7_at_most_one_worker_witness :
    ((validate_and_subscribe "k" "accountSubscribe"
        (validate_and_subscribe "k" "accountSubscribe" initSys).2).2).spawnLog =
      initSys.spawnLog ++ ["k"] :=
  C7_at_most_one_worker.2 initSys "k" "accountSubscribe" (by decide)

/-- On a state satisfying the registry invariant, unsubscribing an absent
key finds no task and mutates nothing. -/
lemma unsub_notfound {s : Sys} (key : String) (hinv : SysInv s)
    (h : key ∉ s.activeKeys) :
    unsubscribe key s = (UnsubResult.notFound, s) := by
  have hfind : s.active_subscriptions.find? (fun p => p.1 == key) = none := by
    apply List.find?_eq_none.mpr
    intro p hp
    simp only [beq_iff_eq]
    intro hc
    exact h (hc ▸ List.mem_map_of_mem Prod.fst hp)
  have hfa : s.active_subscriptions.filter (fun p => p.1 != key) =
      s.active_subscriptions := by
    apply List.filter_eq_self.mpr
    intro p hp
    simp only [bne_iff_ne, ne_eq]
    intro hc
    exact h (hc ▸ List.mem_map_of_mem Prod.fst hp)
  have hfi : s.subscription_ids.filter (fun p => p.1 != key) =
      s.subscription_ids := by
    apply List.filter_eq_self.mpr
    intro p hp
    simp only [bne_iff_ne, ne_eq]
    intro hc
    exact h (hc ▸ hinv.ids_sub p hp)
  simp only [unsubscribe, hfind, Option.map_none', hfa, hfi]

/-- C9: on every reachable state, `unsubscribe` of a key with no active
subscription returns the not-found outcome and leaves the whole state
unchanged (registry map, upstream-id map and buffers included); for an
active key it returns the success outcome carrying
`subscription_ids.get(key)` — the upstream id associated with the key, if
any. -/
theorem C9_unsubscribe_outcomes :
    (∀ (as : List SysAction) (key : String), key ∉ (runSys as).activeKeys →
      unsubscribe key (runSys as) = (UnsubResult.notFound, runSys as)) ∧
    (∀ (s : Sys) (key : String), key ∈ s.activeKeys →
      (unsubscribe key s).1 =
        UnsubResult.success (idLookup key s.subscription_ids)) := by
  constructor
  · intro as key h
    exact unsub_notfound key (sysInv_run as) h
  · intro s key h
    obtain ⟨p, hp, hpk⟩ := List.mem_map.mp h
    have hfs : (s.active_subscriptions.find? (fun q => q.1 == key)).isSome := by
      rw [List.find?_isSome]
      exact ⟨p, hp, by simp [hpk]⟩
    obtain ⟨p0, hp0⟩ := Option.isSome_iff_exists.mp hfs
    simp only [unsubscribe, hp0, Option.map_some']

/-- One live subscription with recorded upstream id 9 for the C9 witness. -/
def c9trace : List SysAction :=
  [SysAction.subscribe "k" "accountSubscribe",
   SysAction.worker 0 UpEvent.connectOk,
   SysAction.worker 0 (UpEvent.recvRaw (some (JVal.jobj [("result", JVal.jnum 9)])))]

/-- Witness for C9: unknown key from the empty state is not found with no
mutation; the live key reports success with its recorded id. -/
theorem C9_unsubscribe_outcomes_witness :
    unsubscribe "zz" (runSys ([] : List SysAction)) =
      (UnsubResult.notFound, runSys ([] : List SysAction)) ∧
    (unsubscribe "k" (runSys c9trace)).1 =
      UnsubResult.success (idLookup "k" (runSys c9trace).subscription_ids) :=
  ⟨C9_unsubscribe_outcomes.1 [] "zz" (by decide),
   C9_unsubscribe_outcomes.2 (runSys c9trace) "k" (by decide)⟩

/-- C5 (amended): after a worker's terminal failure its registry entry is
NOT removed — the code never deregisters a dead worker — so a subsequent
subscribe-style call for the same key is a no-op that returns the buffered
events without starting a fresh worker; the key is freed only by explicit
unsubscribe or capacity eviction.  The handshake-error part of the claim
does hold: the key's buffer then contains exactly one record, of kind
`error`, and the worker is terminated (reported as done). -/
theorem C5_amended_stale_entry :
    (∀ (s : Sys) (key m : String), key ∈ s.activeKeys →
      validate_and_subscribe key m s = (bufRead key s.event_storage, s)) ∧
    (bufRead "k" (runSys c5trace).event_storage).map EventRecord.etype = ["error"] ∧
    ((runSys c5trace).tasks[0]?).map WTask.phase = some WPhase.terminated ∧
    Sys.activeKeys (runSys c5trace) = ["k"] ∧
    (runSys c5trace).tasks.length = 1 := by
  refine ⟨?_, rfl, rfl, rfl, rfl⟩
  intro s key m hmem
  exact vas_state_eq_of_mem m hmem

/-- Witness for the C5 amendment: the re-subscribe after the failure is a
no-op returning the buffered error record. -/
theorem C5_amended_stale_entry_witness :
    validate_and_subscribe "k" "accountSubscribe" (runSys c5trace) =
      (bufRead "k" (runSys c5trace).event_storage, runSys c5trace) :=
  C5_amended_stale_entry.1 (runSys c5trace) "k" "accountSubscribe" (by decide)

lemma jlookup_eq_none_iff (k : String) (fs : List (String × JVal)) :
    jlookup k fs = none ↔ k ∉ fs.map Prod.fst := by
  unfold jlookup
  rw [Option.map_eq_none', List.find?_eq_none]
  constructor
  · intro h hmem
    obtain ⟨p, hp, hpk⟩ := List.mem_map.mp hmem
    have hb := h p hp
    simp only [beq_iff_eq] at hb
    exact hb hpk
  · intro h p hp
    simp only [beq_iff_eq]
    intro hc
    exact h (hc ▸ List.mem_map_of_mem Prod.fst hp)

lemma jlookup_some_mem {k : String} {fs : List (String × JVal)} {v : JVal}
    (h : jlookup k fs = some v) : k ∈ fs.map Prod.fst := by
  by_contra hn
  rw [← jlookup_eq_none_iff] at hn
  rw [hn] at h
  exact Option.noConfusion h

lemma setPhase_storage (tid : Nat) (ph : WPhase) (s : Sys) :
    (setPhase tid ph s).event_storage = s.event_storage :=
  modifyTask_storage tid _ s

lemma bufRead_storeWrite (key : String) (buf : List EventRecord)
    (store : List (String × List EventRecord)) :
    bufRead key (storeWrite key buf store) = buf := by
  induction store with
  | nil => simp [bufRead, storeWrite, List.find?]
  | cons p rest ih =>
      by_cases hp : p.1 = key
      · simp [storeWrite, if_pos hp, bufRead, List.find?]
      · simp only [storeWrite, if_neg hp]
        unfold bufRead
        rw [List.find?_cons_of_neg]
        · exact ih
        · simp [hp]

lemma bufRead_appendBuf (key : String) (r : EventRecord) (s : Sys) :
    bufRead key (appendBuf key r s).event_storage =
      dequeAppend (bufRead key s.event_storage) r := by
  unfold appendBuf
  exact bufRead_storeWrite key _ s.event_storage

lemma idLookup_setId (key : String) (v : JVal) (ids : List (String × JVal)) :
    idLookup key (setId key v ids) = some v := by
  induction ids with
  | nil => simp [idLookup, setId, List.find?]
  | cons q rest ih =>
      by_cases hq : q.1 = key
      · simp [setId, if_pos hq, idLookup, List.find?]
      · simp only [setId, if_neg hq]
        unfold idLookup
        rw [List.find?_cons_of_neg]
        · exact ih
        · simp [hq]

lemma wstep_handshaking_some (s : Sys) (tid : Nat) (key m : String) (v : JVal)
    (h0 : s.tasks[tid]? = some ⟨key, m, WPhase.handshaking, false⟩) :
    ws_listener_step tid (UpEvent.recvRaw (some v)) s =
      handshakeResponse tid ⟨key, m, WPhase.handshaking, false⟩ v s := by
  unfold ws_listener_step
  rw [h0]
  rfl

lemma wstep_handshaking_badjson (s : Sys) (tid : Nat) (key m : String)
    (h0 : s.tasks[tid]? = some ⟨key, m, WPhase.handshaking, false⟩) :
    ws_listener_step tid (UpEvent.recvRaw none) s =
      setPhase tid WPhase.terminated
        (appendBuf key (errorRecord (JVal.jobj
          [("error", JVal.jstr "Failed to decode JSON response from websocket")])) s) := by
  unfold ws_listener_step
  rw [h0]
  rfl

/-- C6 (amended): during the handshake the worker appends a `subscribed`
record and enters streaming for EVERY JSON-object response without an
`"error"` key — whether or not a numeric result is present; the recorded
upstream id is `response.get("result")`, i.e. `None` when absent.  A
response carrying an `"error"` key appends one `error` record and
terminates, and a body that fails JSON decoding appends one `error`
record and terminates.  (The claim's stricter reading — error-and-stop on
a response with no numeric result — is refuted by `C6_counterexample`.) -/
theorem C6_amended_handshake :
    ∀ (s : Sys) (tid : Nat) (key m : String) (fs : List (String × JVal)),
      s.tasks[tid]? = some ⟨key, m, WPhase.handshaking, false⟩ →
      ((jlookup "error" fs = none →
        ((ws_listener_step tid (UpEvent.recvRaw (some (JVal.jobj fs))) s).tasks[tid]?).map
            WTask.phase = some WPhase.streaming ∧
        idLookup key (ws_listener_step tid (UpEvent.recvRaw (some (JVal.jobj fs))) s).subscription_ids =
          some ((jlookup "result" fs).getD JVal.jnull) ∧
        bufRead key (ws_listener_step tid (UpEvent.recvRaw (some (JVal.jobj fs))) s).event_storage =
          dequeAppend (bufRead key s.event_storage)
            (subscribedRecord ((jlookup "result" fs).getD JVal.jnull))) ∧
      (∀ v : JVal, jlookup "error" fs = some v →
        ((ws_listener_step tid (UpEvent.recvRaw (some (JVal.jobj fs))) s).tasks[tid]?).map
            WTask.phase = some WPhase.terminated ∧
        bufRead key (ws_listener_step tid (UpEvent.recvRaw (some (JVal.jobj fs))) s).event_storage =
          dequeAppend (bufRead key s.event_storage)
            (errorRecord (JVal.jobj [("error", v)]))) ∧
      (((ws_listener_step tid (UpEvent.recvRaw none) s).tasks[tid]?).map WTask.phase =
          some WPhase.terminated ∧
        bufRead key (ws_listener_step tid (UpEvent.recvRaw none) s).event_storage =
          dequeAppend (bufRead key s.event_storage)
            (errorRecord (JVal.jobj
              [("error", JVal.jstr "Failed to decode JSON response from websocket")])))) := by
  intro s tid key m fs h0
  refine ⟨?_, ?_, ?_⟩
  · intro herr
    have hstep := wstep_handshaking_some s tid key m (JVal.jobj fs) h0
    have hnotin : "error" ∉ fs.map Prod.fst := (jlookup_eq_none_iff _ _).mp herr
    have hpc : pyContains "error" (JVal.jobj fs) = PyInRes.no := by
      simp [pyContains, hnotin]
    have hhr : handshakeResponse tid ⟨key, m, WPhase.handshaking, false⟩ (JVal.jobj fs) s =
        setPhase tid WPhase.streaming
          (appendBuf key (subscribedRecord ((jlookup "result" fs).getD JVal.jnull))
            { s with subscription_ids :=
              (setId key ((jlookup "result" fs).getD JVal.jnull) s.subscription_ids) }) := by
      unfold handshakeResponse
      rw [hpc]
    rw [hstep, hhr]
    refine ⟨?_, ?_, ?_⟩
    · have hx : (appendBuf key (subscribedRecord ((jlookup "result" fs).getD JVal.jnull))
          { s with subscription_ids :=
            (setId key ((jlookup "result" fs).getD JVal.jnull) s.subscription_ids) }).tasks[tid]? =
          some ⟨key, m, WPhase.handshaking, false⟩ := h0
      rw [setPhase_getElem, if_pos rfl, hx]
      rfl
    · rw [setPhase_ids]
      exact idLookup_setId key _ s.subscription_ids
    · rw [setPhase_storage]
      exact bufRead_appendBuf key _ _
  · intro v herr
    have hstep := wstep_handshaking_some s tid key m (JVal.jobj fs) h0
    have hin : "error" ∈ fs.map Prod.fst := jlookup_some_mem herr
    have hpc : pyContains "error" (JVal.jobj fs) = PyInRes.yes := by
      simp [pyContains, hin]
    have hhr : handshakeResponse tid ⟨key, m, WPhase.handshaking, false⟩ (JVal.jobj fs) s =
        setPhase tid WPhase.terminated
          (appendBuf key (errorRecord (JVal.jobj
            [("error", (jlookup "error" fs).getD (JVal.jstr "Unknown subscription error"))])) s) := by
      unfold handshakeResponse
      rw [hpc]
    rw [hstep, hhr, herr, Option.getD_some]
    constructor
    · have hx : (appendBuf key (errorRecord (JVal.jobj [("error", v)])) s).tasks[tid]? =
          some ⟨key, m, WPhase.handshaking, false⟩ := h0
      rw [setPhase_getElem, if_pos rfl, hx]
      rfl
    · rw [setPhase_storage]
      exact bufRead_appendBuf key _ _
  · have hstep := wstep_handshaking_badjson s tid key m h0
    rw [hstep]
    constructor
    · have hx : (appendBuf key (errorRecord (JVal.jobj
          [("error", JVal.jstr "Failed to decode JSON response from websocket")])) s).tasks[tid]? =
          some ⟨key, m, WPhase.handshaking, false⟩ := h0
      rw [setPhase_getElem, if_pos rfl, hx]
      rfl
    · rw [setPhase_storage]
      exact bufRead_appendBuf key _ _

/-- State with one worker awaiting its handshake response, for the C6
witness. -/
def c6wtrace : List SysAction :=
  [SysAction.subscribe "w" "accountSubscribe",
   SysAction.worker 0 UpEvent.connectOk]

/-- Witness for the C6 amendment at the response `\x7b"result": 42\x7d`. -/
theorem C6_amended_handshake_witness :
    ((ws_listener_step 0 (UpEvent.recvRaw (some (JVal.jobj [("result", JVal.jnum 42)])))
        (runSys c6wtrace)).tasks[0]?).map WTask.phase = some WPhase.streaming ∧
    idLookup "w" (ws_listener_step 0 (UpEvent.recvRaw (some (JVal.jobj [("result", JVal.jnum 42)])))
        (runSys c6wtrace)).subscription_ids =
      some ((jlookup "result" [("result", JVal.jnum 42)]).getD JVal.jnull) ∧
    bufRead "w" (ws_listener_step 0 (UpEvent.recvRaw (some (JVal.jobj [("result", JVal.jnum 42)])))
        (runSys c6wtrace)).event_storage =
      dequeAppend (bufRead "w" (runSys c6wtrace).event_storage)
        (subscribedRecord ((jlookup "result" [("result", JVal.jnum 42)]).getD JVal.jnull)) :=
  (C6_amended_handshake (runSys c6wtrace) 0 "w" "accountSubscribe"
    [("result", JVal.jnum 42)] rfl).1 rfl

/-- C10 (amended): the key-type classification applies its checks in the
fixed order program-prefix, block-prefix, signature-length heuristic
(length strictly between 60 and 90), account default — the prefix checks
winning regardless of length — and it determines neither which
subscriptions are listed nor the `key`/`subscription_id`/`event_count`/
`task_status` fields; but program- and block-classified keys additionally
carry a `program_id` / `commitment` field derived from the key, so the
classification is not free of effect on the other output fields (see
`C10_counterexample`). -/
theorem C10_amended_classification :
    (∀ key : String, pyStartsWith key "program_" = true →
      (classifyKey key).1 = "program") ∧
    (∀ key : String, pyStartsWith key "program_" = false →
      pyStartsWith key "block_" = true → (classifyKey key).1 = "block") ∧
    (∀ key : String, pyStartsWith key "program_" = false →
      pyStartsWith key "block_" = false → 60 < key.length → key.length < 90 →
      (classifyKey key).1 = "transaction_signature") ∧
    (∀ key : String, pyStartsWith key "program_" = false →
      pyStartsWith key "block_" = false → ¬(60 < key.length ∧ key.length < 90) →
      (classifyKey key).1 = "account") ∧
    (∀ s : Sys, (listSubscriptions s).subscriptions.map SubDetail.key = s.activeKeys) ∧
    (∀ s : Sys, (listSubscriptions s).subscriptions.map
        (fun d => (d.key, d.subscription_id, d.event_count, d.task_status)) =
      s.active_subscriptions.map (fun p => (p.1, idLookup p.1 s.subscription_ids,
        (bufRead p.1 s.event_storage).length,
        match s.tasks[p.2]? with
        | some t => if t.phase = WPhase.terminated then "done" else "running"
        | none => "running"))) := by
  refine ⟨?_, ?_, ?_, ?_, ?_, ?_⟩
  · intro key h
    unfold classifyKey
    rw [if_pos h]
  · intro key h1 h2
    unfold classifyKey
    rw [if_neg (by simp [h1]), if_pos h2]
  · intro key h1 h2 h3 h4
    unfold classifyKey
    rw [if_neg (by simp [h1]), if_neg (by simp [h2]), if_pos (And.intro h3 h4)]
  · intro key h1 h2 h3
    unfold classifyKey
    rw [if_neg (by simp [h1]), if_neg (by simp [h2]), if_neg h3]
  · intro s
    unfold listSubscriptions Sys.activeKeys
    rw [List.map_map]
    rfl
  · intro s
    unfold listSubscriptions
    rw [List.map_map]
    rfl

/-- A 78-character program-prefixed key: its length lies inside the
signature heuristic range, yet the prefix check wins. -/
def c10longKey : String :=
  "program_aaaaaaaaaaaaaaaaaaaaaaaaaaaaaaaaaaaaaaaaaaaaaaaaaaaaaaaaaaaaaaaaaaaaaa"

/-- Witness for the C10 amendment: the long program key classifies as
`program` despite its signature-range length, and a short plain key
classifies as `account`. -/
theorem C10_amended_classification_witness :
    (classifyKey c10longKey).1 = "program" ∧ (classifyKey "abc").1 = "account" :=
  ⟨C10_amended_classification.1 c10longKey (by decide),
   C10_amended_classification.2.2.2.1 "abc" (by decide) (by decide) (by decide)⟩
